import Mathlib

/-!
Verification development for the degenerate render pipeline and its
command interpreter.  The interpreter logic (the `Command` enum, its
`apply` method and its `FromStr` parser) is embedded from
src/src/command.rs.  Components that the repository supplies outside the
interpreter sources (the state record, the coordinate transforms, the
filter predicates, the operations, the driver loop and the process
environment) are modelled from the specification, as marked on each
definition.
-/

deriving instance DecidableEq for Except

namespace Degen

/-- Machine word bound: `usize` arithmetic in the interpreter wraps modulo
this constant (64-bit target). -/
def USIZE : Nat := 2 ^ 64

/-- Modelled from the spec: a color is a 3-component vector of channel
values in the fixed range 0..255 (spec section 3, Color Matrix). -/
abbrev Color : Type := Int × Int × Int

/-- The zero / background color, `Vector3::zeros()` in the source. -/
def colorZero : Color := (0, 0, 0)

/-- Modelled from the spec: per-channel complement within the fixed range
(spec section 4.3, Invert). -/
def invertColor (c : Color) : Color := (255 - c.1, 255 - c.2.1, 255 - c.2.2)

/-- Modelled from the spec: the Color Matrix, a rows-by-cols grid of colors
addressed by (row, col); stored as a flat row-major list. -/
structure Mat where
  rows : Nat
  cols : Nat
  data : List Color
deriving DecidableEq

/-- Modelled from the spec: a zeroed matrix of the given dimensions
(`resize` reallocates the Color Matrix, clearing content). -/
def Mat.zeros (r c : Nat) : Mat := ⟨r, c, List.replicate (r * c) colorZero⟩

/-- Bounds-checked read, `matrix.get((row, col))` in the source: returns
`none` when the index lies outside the grid. -/
def matGet (m : Mat) (r c : Int) : Option Color :=
  if 0 ≤ r ∧ r < (m.rows : Int) ∧ 0 ≤ c ∧ c < (m.cols : Int) then
    m.data[r.toNat * m.cols + c.toNat]?
  else
    none

/-- In-bounds write `output[(row, col)] = v` in the source. -/
def matSet (m : Mat) (r c : Nat) (v : Color) : Mat :=
  { m with data := m.data.set (r * m.cols + c) v }

/-- The filter shape kinds of the source (`Filter` enum referenced by
src/src/command.rs). -/
inductive Filter where
  | All
  | Circle
  | Cross
  | Mod (divisor remainder : Nat)
  | Rows (nrows step : Nat)
  | Square
  | Top
  | X
deriving DecidableEq

/-- The per-pixel operations of the source (`Operation` enum referenced by
src/src/command.rs).  The rotate-color axis and turns are parsed as
numbers; we model the floating-point values as rationals. -/
inductive Operation where
  | Invert
  | Random
  | RotateColor (axis turns : Rat)
deriving DecidableEq

/-- The command enum of src/src/command.rs.  Paths are strings; the f64
turn count of `Rotate` is modelled as a rational. -/
inductive Command where
  | Filter (f : Filter)
  | For (until_ : Nat)
  | Load (path : Option String)
  | Loop
  | Operation (op : Operation)
  | Print
  | Repl
  | Resize (dimensions : Nat × Nat)
  | Rotate (turns : Rat)
  | Save (path : Option String)
  | Verbose
deriving DecidableEq

/-- Error kinds of the interpreter (spec section 7): parse errors and IO
errors. -/
inductive Err where
  | parseErr (msg : String)
  | ioErr (msg : String)
deriving DecidableEq

/-- Modelled from the spec: the external geometric-algebra and randomness
facilities (spec sections 1 and 6 treat them as collaborators outside the
core): the 2D rotation constructed from a turn count, the 3D color
rotation about an axis, and the random color source. -/
structure Geom where
  rot2 : Rat → (Rat × Rat) → (Rat × Rat)
  rotColor : Rat → Rat → Color → Color
  randColor : Nat → Color × Nat

/-- Modelled from the spec: the Interpreter State (spec section 3).  The
fields used by src/src/command.rs are the color matrix, the sampling
rotation, the current operation, the randomness source (modelled as a
natural-number seed), the program with its program counter and loop
counter, and the verbosity flag.  The ambient process environment (REPL
input lines, standard output and error, and the file system keyed by
path) is modelled as explicit state so that IO-performing commands are
pure functions. -/
structure State where
  matrix : Mat
  rotation : (Rat × Rat) → (Rat × Rat)
  operation : Operation
  rng : Nat
  program : List Command
  program_counter : Nat
  loop_counter : Nat
  verbose : Bool
  input : List String
  stdout : List String
  stderr : List String
  files : List (String × Mat)

/-- `state.dimensions()` in the source: the (width, height) pair, i.e.
(columns, rows). -/
def State.dimensions (s : State) : Nat × Nat := (s.matrix.cols, s.matrix.rows)

/-- Modelled from the spec: `to_coordinate` (spec section 4.1), the
`.coordinates` method on pixel indices.  Maps a pixel index to the
aspect-normalized continuous plane in which the grid's shorter dimension
spans [-1, 1] and the longer dimension is scaled proportionally: the pixel
center (2 p + 1 - d) / (2 m) in half-units of the shorter dimension m. -/
def coordinates (i : Int × Int) (d : Nat × Nat) : Rat × Rat :=
  ((2 * i.1 + 1 - (d.1 : Int)) / ((min d.1 d.2 : Nat) : Rat),
   (2 * i.2 + 1 - (d.2 : Int)) / ((min d.1 d.2 : Nat) : Rat))

/-- Modelled from the spec: `to_pixel` (spec section 4.1), the `.pixel`
method, inverse of `coordinates`.  Out-of-range coordinates produce
out-of-range indices, which are valid values resolved only at the
sampling boundary (get-or-zero). -/
def pixel (v : Rat × Rat) (d : Nat × Nat) : Int × Int :=
  (⌊(v.1 * ((min d.1 d.2 : Nat) : Rat) + (d.1 : Int)) / 2⌋,
   ⌊(v.2 * ((min d.1 d.2 : Nat) : Rat) + (d.2 : Int)) / 2⌋)

/-- Modelled from the spec: the filter predicate `matches(filter,
pixel_index, transformed_coordinate)` (spec section 4.2), also given the
grid dimensions, which the source passes via the state.  All: always
true.  Circle: coordinate within unit distance of the center (the circle
inscribed in the shorter dimension).  Cross and X: the pixel lies on
either main diagonal within one step.  Square: coordinate within the
centered square of fractional half-size 1/2.  Top: pixel row in the upper
half.  Rows: the pixel row, divided into bands of nrows rows, falls in a
band selected with period step.  Mod: the pixel's (column-major) linear
index modulo divisor equals remainder. -/
def Filter.matches (f : Filter) (d : Nat × Nat) (i : Int × Int) (v : Rat × Rat) : Bool :=
  match f with
  | .All => true
  | .Circle => decide (v.1 ^ 2 + v.2 ^ 2 ≤ 1)
  | .Cross => decide ((i.1 - i.2).natAbs ≤ 1 ∨ (i.1 + i.2 - ((d.1 : Int) - 1)).natAbs ≤ 1)
  | .Mod divisor remainder =>
      decide ((i.1 * (d.2 : Int) + i.2) % (divisor : Int) = (remainder : Int))
  | .Rows nrows step => decide ((i.2 / (nrows : Int)) % (step : Int) = 0)
  | .Square => decide (|v.1| ≤ 1 / 2 ∧ |v.2| ≤ 1 / 2)
  | .Top => decide (2 * i.2 < (d.2 : Int))
  | .X => decide ((i.1 - i.2).natAbs ≤ 1 ∨ (i.1 + i.2 - ((d.1 : Int) - 1)).natAbs ≤ 1)

/-- Modelled from the spec: `apply(operation, rng, source_color)` (spec
section 4.3).  Invert complements each channel; Random draws a fresh
color from the randomness source, consuming entropy; RotateColor rotates
the color about the given axis through the external facility. -/
def Operation.eval (G : Geom) (op : Operation) (g : Nat) (c : Color) : Color × Nat :=
  match op with
  | .Invert => (invertColor c, g)
  | .Random => G.randColor g
  | .RotateColor axis turns => (G.rotColor axis turns c, g)

/-- One iteration of the render-pass double loop in the Filter arm of
`Command::apply` (src/src/command.rs lines 21-41): for destination pixel
(col, row), compute its coordinate, rotate it, map it back to a source
pixel, and if the filter matches, write the operation applied to the
sampled (get-or-zero) source color into the output cell; the randomness
seed is threaded through. -/
def renderStep (G : Geom) (f : Filter) (s : State) (acc : Mat × Nat) (cr : Nat × Nat) :
    Mat × Nat :=
  let i0 : Int × Int := ((cr.1 : Int), (cr.2 : Int))
  let v0 := coordinates i0 s.dimensions
  let v := s.rotation v0
  let i := pixel v s.dimensions
  if f.matches s.dimensions i v then
    let src := (matGet s.matrix i.2 i.1).getD colorZero
    let r := Operation.eval G s.operation acc.2 src
    (matSet acc.1 cr.2 cr.1 r.1, r.2)
  else acc

/-- The full render pass of the Filter arm: iterate columns in the outer
loop and rows in the inner loop over a fresh output that starts as a
clone of the current matrix, reading only from the pre-step matrix. -/
def renderFilter (G : Geom) (f : Filter) (s : State) : Mat × Nat :=
  (List.product (List.range s.matrix.cols) (List.range s.matrix.rows)).foldl
    (renderStep G f s) (s.matrix, s.rng)

/-- Follows the spec's words for claim C1: identical to `renderStep`
except that the filter is evaluated against the destination pixel index
together with the transformed (source) coordinate. -/
def renderStepDest (G : Geom) (f : Filter) (s : State) (acc : Mat × Nat) (cr : Nat × Nat) :
    Mat × Nat :=
  let i0 : Int × Int := ((cr.1 : Int), (cr.2 : Int))
  let v0 := coordinates i0 s.dimensions
  let v := s.rotation v0
  let i := pixel v s.dimensions
  if f.matches s.dimensions i0 v then
    let src := (matGet s.matrix i.2 i.1).getD colorZero
    let r := Operation.eval G s.operation acc.2 src
    (matSet acc.1 cr.2 cr.1 r.1, r.2)
  else acc

/-- Follows the spec's words for claim C1: the render pass with the filter
evaluated at the destination pixel index. -/
def renderFilterDest (G : Geom) (f : Filter) (s : State) : Mat × Nat :=
  (List.product (List.range s.matrix.cols) (List.range s.matrix.rows)).foldl
    (renderStepDest G f s) (s.matrix, s.rng)

/-- The forward scan of the For arm (src/src/command.rs lines 43-53):
repeatedly advance the program counter with wrapping addition until the
command at the counter is `Loop` or the counter is past the end of the
program.  The scan visits at most `program.length + 2` positions for any
64-bit counter, which the explicit bound makes structural. -/
def forScanGo (p : List Command) : Nat → Nat → Nat
  | 0, pc => pc
  | bound + 1, pc =>
    let next := (pc + 1) % USIZE
    match p[next]? with
    | some .Loop => next
    | none => next
    | some _ => forScanGo p bound next

/-- The forward scan started with its worst-case position bound. -/
def forScan (p : List Command) (pc : Nat) : Nat :=
  forScanGo p (p.length + 2) pc

/-- The backward scan of the Loop arm (src/src/command.rs lines 55-67):
repeatedly move the program counter down with wrapping subtraction; stop
(leaving the counter one below the examined position) as soon as the
examined position is 0, holds a `For`, or is past the end of the
program.  Position 0 stops via the wrap check, yielding `usize::MAX`. -/
def loopScan (p : List Command) : Nat → Nat
  | 0 => USIZE - 1
  | pc + 1 =>
    match p[pc + 1]? with
    | some (.For _) => pc
    | none => pc
    | some _ => loopScan p pc

/-- The `split` iterator of the source, `s.split(sep)`, embedded on
character lists: splitting never yields the empty list, and an input
without the separator yields the one-element list holding the input. -/
def splitCharGo (sep : Char) (cur : List Char) : List Char → List (List Char)
  | [] => [cur.reverse]
  | c :: rest =>
    if c = sep then cur.reverse :: splitCharGo sep [] rest
    else splitCharGo sep (c :: cur) rest

/-- `s.split(sep).collect()` on strings. -/
def splitChar (sep : Char) (s : String) : List String :=
  (splitCharGo sep [] s.data).map fun l => ⟨l⟩

/-- The numeric value of a digit list. -/
def digitsVal (l : List Char) : Nat :=
  l.foldl (fun a c => a * 10 + (c.toNat - 48)) 0

/-- Modelled from the spec: unsigned-integer parsing for command
arguments, with the standard library's error messages (spec section 7,
ParseError for an unparsable numeric argument). -/
def parseNat (t : String) : Except Err Nat :=
  if t.data = [] then .error (.parseErr "cannot parse integer from empty string")
  else if t.data.all Char.isDigit then .ok (digitsVal t.data)
  else .error (.parseErr "invalid digit found in string")

/-- Modelled from the spec: float parsing for command arguments (turn
counts and axes), modelled on decimal literals with the floating-point
value represented exactly as a rational. -/
def parseFloat (t : String) : Except Err Rat :=
  let core : List Char → Option Rat := fun u =>
    match splitCharGo '.' [] u with
    | [a] =>
      if a ≠ [] ∧ a.all Char.isDigit then some (mkRat (digitsVal a) 1) else none
    | [a, b] =>
      if a ≠ [] ∧ a.all Char.isDigit ∧ b ≠ [] ∧ b.all Char.isDigit then
        some (mkRat (digitsVal a * 10 ^ b.length + digitsVal b) (10 ^ b.length))
      else none
    | _ => none
  let r :=
    match t.data with
    | '-' :: rest => (core rest).map Neg.neg
    | l => core l
  match r with
  | some q => .ok q
  | none => .error (.parseErr "invalid float literal")

/-- The catch-all parse error of `Command::from_str`
(src/src/command.rs line 143): format "Invalid command: {input}". -/
def invalidCmd (s : String) : Except Err Command :=
  .error (.parseErr ("Invalid command: " ++ s))

/-- The one-token arms of the `Command::from_str` slice match
(src/src/command.rs lines 110-145). -/
def parse1 (s a : String) : Except Err Command :=
  if a = "all" then .ok (.Filter .All)
  else if a = "circle" then .ok (.Filter .Circle)
  else if a = "cross" then .ok (.Filter .Cross)
  else if a = "invert" then .ok (.Operation .Invert)
  else if a = "load" then .ok (.Load none)
  else if a = "loop" then .ok .Loop
  else if a = "print" then .ok .Print
  else if a = "random" then .ok (.Operation .Random)
  else if a = "repl" then .ok .Repl
  else if a = "save" then .ok (.Save none)
  else if a = "square" then .ok (.Filter .Square)
  else if a = "top" then .ok (.Filter .Top)
  else if a = "verbose" then .ok .Verbose
  else if a = "x" then .ok (.Filter .X)
  else invalidCmd s

/-- The two-token arms of the `Command::from_str` slice match. -/
def parse2 (s a b : String) : Except Err Command :=
  if a = "for" then (parseNat b).map .For
  else if a = "load" then .ok (.Load (some b))
  else if a = "rotate" then (parseFloat b).map .Rotate
  else if a = "save" then .ok (.Save (some b))
  else invalidCmd s

/-- The three-token arms of the `Command::from_str` slice match. -/
def parse3 (s a b c : String) : Except Err Command :=
  if a = "mod" then
    (parseNat b).bind fun divisor =>
      (parseNat c).map fun remainder => .Filter (.Mod divisor remainder)
  else if a = "resize" then
    (parseNat b).bind fun cols =>
      (parseNat c).map fun rows => .Resize (rows, cols)
  else if a = "rotate-color" then
    (parseFloat b).bind fun axis =>
      (parseFloat c).map fun turns => .Operation (.RotateColor axis turns)
  else if a = "rows" then
    (parseNat b).bind fun nrows =>
      (parseNat c).map fun step => .Filter (.Rows nrows step)
  else invalidCmd s

/-- The body of `Command::from_str` (src/src/command.rs lines 110-145)
after splitting the input on colons.  The slice-pattern match of the
source is embedded arity-first: the token-list shape selects the arm
group, and the keyword tests select the arm. -/
def parseParts (s : String) : List String → Except Err Command
  | [a] => parse1 s a
  | [a, b] => parse2 s a b
  | [a, b, c] => parse3 s a b c
  | _ => invalidCmd s

/-- `Command::from_str`: split the input on colons and match the
token-list shape. -/
def parseCommand (s : String) : Except Err Command :=
  parseParts s (splitChar ':' s)

/-- Whether a one-token list matches a command shape. -/
def shape1 (a : String) : Bool :=
  if a = "all" then true
  else if a = "circle" then true
  else if a = "cross" then true
  else if a = "invert" then true
  else if a = "load" then true
  else if a = "loop" then true
  else if a = "print" then true
  else if a = "random" then true
  else if a = "repl" then true
  else if a = "save" then true
  else if a = "square" then true
  else if a = "top" then true
  else if a = "verbose" then true
  else if a = "x" then true
  else false

/-- Whether a two-token list matches a command shape. -/
def shape2 (a : String) : Bool :=
  if a = "for" then true
  else if a = "load" then true
  else if a = "rotate" then true
  else if a = "save" then true
  else false

/-- Whether a three-token list matches a command shape. -/
def shape3 (a : String) : Bool :=
  if a = "mod" then true
  else if a = "resize" then true
  else if a = "rotate-color" then true
  else if a = "rows" then true
  else false

/-- Whether a token list matches one of the command shapes of the grammar
(mirrors the pattern structure of `parseParts`; an input whose token list
does not match any shape falls to the catch-all error). -/
def shapeMatched : List String → Bool
  | [a] => shape1 a
  | [a, _] => shape2 a
  | [a, _, _] => shape3 a
  | _ => false

/-- Substring test on character lists, used to state that an error
message names the offending text. -/
def containsChars (needle : List Char) : List Char → Bool
  | [] => needle.isPrefixOf []
  | a :: t => needle.isPrefixOf (a :: t) || containsChars needle t

/-- Whether the string `pat` occurs inside the string `hay`. -/
def strContains (hay pat : String) : Bool := containsChars pat.data hay.data

/-- Modelled from the spec: the textual bitmap of the matrix, one digit
per pixel per row (spec section 6, `print`): 0 for the background color,
1 otherwise. -/
def matLines (m : Mat) : List String :=
  (List.range m.rows).map fun r =>
    String.mk ((List.range m.cols).map fun c =>
      match matGet m (r : Int) (c : Int) with
      | some v => if v = colorZero then '0' else '1'
      | none => '0')

/-- Modelled from the spec: `state.print()` renders the matrix to standard
output. -/
def printState (s : State) : State :=
  { s with stdout := s.stdout ++ matLines s.matrix }

/-- Lookup in the modelled file system. -/
def lookupFile (fs : List (String × Mat)) (path : String) : Option Mat :=
  (fs.find? fun e => e.1 == path).map (·.2)

/-- The display text of an error, as interpolated into the diagnostic
report of the interactive loop. -/
def errText : Err → String
  | .parseErr m => m
  | .ioErr m => m

/-- The interactive loop of the Repl arm (src/src/command.rs lines
70-92), taking the command application as an argument: read a line (end
of input makes the read fail, and the failure propagates), parse it; on
parse success apply the command and print the state, letting any
application error propagate; on parse failure report the error on the
diagnostic stream and continue.  The fuel argument bounds the number of
iterations and exceeds the worst case whenever it exceeds the length of
the remaining input. -/
def replLoop (applyF : Command → State → Except Err State) :
    Nat → State → Except Err State
  | 0, _ => .error (.ioErr "interrupted")
  | fuel + 1, s =>
    match s.input with
    | [] => .error (.ioErr "EOF")
    | line :: rest =>
      let s0 := { s with input := rest }
      match parseCommand line with
      | .ok c =>
        match applyF c s0 with
        | .error e => .error e
        | .ok s1 => replLoop applyF fuel (printState s1)
      | .error e =>
        replLoop applyF fuel
          { s0 with
            stderr := s0.stderr ++
              ["Could not parse command from " ++ line ++ ": " ++ errText e] }

/-- `Command::apply` (src/src/command.rs lines 19-104).  The Filter arm
runs the render pass and replaces the matrix and randomness seed in one
step; For and Loop implement the bounded-loop scans; Load replaces the
matrix from the modelled file system (error when the file is missing),
defaulting the path to output.png; Save writes the matrix to the file
system with the same default; Print renders to standard output; Repl runs
the interactive loop; Resize reallocates the matrix; Rotate installs the
rotation built from the turn count; Verbose toggles the flag.  The fuel
argument is consumed only by the interactive loop. -/
def Command.apply (G : Geom) : Nat → Command → State → Except Err State
  | _, .Filter f, s =>
    let out := renderFilter G f s
    .ok { s with matrix := out.1, rng := out.2 }
  | _, .For until_, s =>
    .ok (if until_ ≤ s.loop_counter then
      { s with program_counter := forScan s.program s.program_counter,
               loop_counter := 0 }
    else s)
  | _, .Load path, s =>
    match lookupFile s.files (path.getD "output.png") with
    | some m => .ok { s with matrix := m }
    | none => .error (.ioErr ("No such file: " ++ path.getD "output.png"))
  | _, .Loop, s =>
    .ok { s with program_counter := loopScan s.program s.program_counter,
                 loop_counter := s.loop_counter + 1 }
  | _, .Operation op, s => .ok { s with operation := op }
  | _, .Print, s => .ok (printState s)
  | 0, .Repl, _ => .error (.ioErr "interrupted")
  | fuel + 1, .Repl, s => replLoop (fun c t => Command.apply G fuel c t) (fuel + 1) s
  | _, .Resize dimensions, s => .ok { s with matrix := Mat.zeros dimensions.1 dimensions.2 }
  | _, .Rotate turns, s => .ok { s with rotation := G.rot2 turns }
  | _, .Save path, s => .ok { s with files := (path.getD "output.png", s.matrix) :: s.files }
  | _, .Verbose, s => .ok { s with verbose := !s.verbose }

/-- Modelled from the spec: the post-command increment of the driver loop
(spec section 4.6: every command execution is followed by advancing the
counter by one, with wrapping 64-bit arithmetic as in the scans). -/
def bump (s : State) : State :=
  { s with program_counter := (s.program_counter + 1) % USIZE }

/-- Modelled from the spec: the script driver (spec sections 2 and 4.6):
fetch the command at the program counter, halting when the counter is
out of range; apply it, aborting the script on the first error;
increment the counter; repeat.  The fuel argument bounds the number of
executed commands. -/
def run (G : Geom) : Nat → State → Except Err State
  | 0, s => .ok s
  | fuel + 1, s =>
    match s.program[s.program_counter]? with
    | none => .ok s
    | some c =>
      match Command.apply G fuel c s with
      | .error e => .error e
      | .ok s1 => run G fuel (bump s1)

/-- The list of program indices executed by the driver, in order, within
the given fuel (the index of a command whose application fails is still
recorded as executed). -/
def execTrace (G : Geom) : Nat → State → List Nat
  | 0, _ => []
  | fuel + 1, s =>
    match s.program[s.program_counter]? with
    | none => []
    | some c =>
      match Command.apply G fuel c s with
      | .error _ => [s.program_counter]
      | .ok s1 => s.program_counter :: execTrace G fuel (bump s1)

/-- Modelled from the spec: the initial interpreter state for a program
(spec sections 3 and 8): the default 20-row by 80-column zeroed bitmap,
identity rotation, Invert operation, counters at zero, and an empty
process environment. -/
def initState (p : List Command) : State :=
  { matrix := Mat.zeros 20 80
    rotation := fun v => v
    operation := .Invert
    rng := 0
    program := p
    program_counter := 0
    loop_counter := 0
    verbose := false
    input := []
    stdout := []
    stderr := []
    files := [] }

/-- Plain state commands: those that neither jump (For, Loop) nor touch
the process environment in a way that can fail or consume input (Load,
Repl).  Applying one always succeeds and leaves the program, both
counters and the input untouched. -/
def straightOk : Command → Bool
  | .For _ => false
  | .Loop => false
  | .Load _ => false
  | .Repl => false
  | _ => true

/-- A program with no Repl command (the interactive loop is the only
fuel-sensitive command). -/
def ReplFree (p : List Command) : Prop := ∀ c ∈ p, c ≠ Command.Repl

/-- Executing program `p` from the initial state terminates (the driver
halts with the counter out of range) having executed program index `idx`
exactly `n` times. -/
def ExecCountIs (G : Geom) (p : List Command) (idx n : Nat) : Prop :=
  ∃ F s, run G F (initState p) = .ok s ∧ p[s.program_counter]? = none ∧
    (execTrace G F (initState p)).count idx = n

/-- A concrete instantiation of the external facilities, used for
witnesses and counterexamples. -/
def G0 : Geom :=
  { rot2 := fun _ v => v
    rotColor := fun _ _ c => c
    randColor := fun g => ((((g : Int) * 37 + 11) % 256, 0, 0), g + 1) }

/-- The plane rotation by half a turn, exactly representable over the
rationals, used to exercise nontrivial transforms in counterexamples. -/
def rot180 : (Rat × Rat) → (Rat × Rat) := fun v => (-v.1, -v.2)

/-- Well-formedness of a matrix: the flat data list has exactly
rows-times-cols entries. -/
def MatWF (m : Mat) : Prop := m.data.length = m.rows * m.cols

instance (m : Mat) : Decidable (MatWF m) :=
  inferInstanceAs (Decidable (m.data.length = m.rows * m.cols))

/-- The transformed (source) coordinate of destination pixel (col, row):
its aspect-normalized coordinate with the state's rotation applied. -/
def srcCoord (s : State) (c r : Nat) : Rat × Rat :=
  s.rotation (coordinates ((c : Int), (r : Int)) s.dimensions)

/-- The source pixel index of destination pixel (col, row): the
transformed coordinate mapped back to the grid. -/
def srcIdx (s : State) (c r : Nat) : Int × Int :=
  pixel (srcCoord s c r) s.dimensions

/-- The sampled source color for destination pixel (col, row): the
pre-step matrix at the source index, or the background color when that
index lies outside the grid. -/
def sampleSrc (s : State) (c r : Nat) : Color :=
  (matGet s.matrix (srcIdx s c r).2 (srcIdx s c r).1).getD colorZero

/-- A concrete interactive-session state: two pending input lines, the
first a load of a missing file, and an empty file system. -/
def sRepl : State := { initState [] with input := ["load:nope.png", "verbose"] }

/-- A concrete state positioned on a Loop command with the matching For
at program index 0. -/
def sLoop : State := { initState [.For 1, .Loop] with program_counter := 1 }

/-- The program of the claim C3 counterexample: a for-0 block whose
forward skip lands on the inner block's closing loop, so the inner for-1
block never starts. -/
def cexProg : List Command := [.For 0, .For 1, .Print, .Loop]

/-- A concrete state positioned on the closing Loop of a block whose For
sits at index 1, with a plain command between them. -/
def sC4w : State :=
  { initState [.Print, .For 2, .Print, .Loop] with program_counter := 3 }

/-- A concrete state positioned on a Loop command with no For anywhere in
the program. -/
def sLoopw : State := { initState [.Print, .Loop] with program_counter := 1 }

/-- A concrete two-by-two all-background state with the half-turn
rotation installed, used in counterexamples. -/
def sRot : State :=
  { matrix := Mat.zeros 2 2
    rotation := rot180
    operation := .Invert
    rng := 0
    program := []
    program_counter := 0
    loop_counter := 0
    verbose := false
    input := []
    stdout := []
    stderr := []
    files := [] }

/-- A program consisting of a single bounded-loop block: a prefix, the
opening `for:n`, the body, the closing `loop`, and a suffix. -/
def blockProg (A B C : List Command) (n : Nat) : List Command :=
  A ++ Command.For n :: (B ++ Command.Loop :: C)

/-- The trace of one iteration of a bounded-loop block: the `For` at the
prefix length, the body indices in order, and the closing `Loop`. -/
def iterTrace (A B : List Command) : List Nat :=
  A.length :: (List.range' (A.length + 1) B.length ++ [A.length + 1 + B.length])

/-! ## Matrix access lemmas -/

theorem matSet_rows (m : Mat) (r c : Nat) (v : Color) : (matSet m r c v).rows = m.rows := rfl

theorem matSet_cols (m : Mat) (r c : Nat) (v : Color) : (matSet m r c v).cols = m.cols := rfl

theorem matSet_length (m : Mat) (r c : Nat) (v : Color) :
    (matSet m r c v).data.length = m.data.length := by
  simp [matSet]

theorem rowcol_index_lt {rows cols r c : Nat} (hr : r < rows) (hc : c < cols) :
    r * cols + c < rows * cols := by
  calc r * cols + c < r * cols + cols := by omega
    _ = (r + 1) * cols := by ring
    _ ≤ rows * cols := Nat.mul_le_mul_right _ (by omega)

theorem rowcol_index_inj {cols r c r2 c2 : Nat} (hc : c < cols) (hc2 : c2 < cols)
    (h : r * cols + c = r2 * cols + c2) : r = r2 ∧ c = c2 := by
  have hcols : 0 < cols := by omega
  have h1 : c = c2 := by
    have h2 := congrArg (· % cols) h
    simpa [Nat.mul_add_mod, Nat.add_mul_mod_self_left, Nat.mod_eq_of_lt hc,
      Nat.mod_eq_of_lt hc2, Nat.add_comm, Nat.add_mul_mod_self_right] using h2
  refine ⟨?_, h1⟩
  have h3 : r * cols = r2 * cols := by omega
  exact Nat.eq_of_mul_eq_mul_right hcols h3

theorem matGet_matSet_self (m : Mat) {r c : Nat} (v : Color) (hr : r < m.rows)
    (hc : c < m.cols) (hwf : MatWF m) :
    matGet (matSet m r c v) (r : Int) (c : Int) = some v := by
  have hcond : (0 : Int) ≤ (r : Int) ∧ (r : Int) < ((matSet m r c v).rows : Int) ∧
      (0 : Int) ≤ (c : Int) ∧ (c : Int) < ((matSet m r c v).cols : Int) := by
    refine ⟨Int.natCast_nonneg r, ?_, Int.natCast_nonneg c, ?_⟩ <;>
      simp [matSet_rows, matSet_cols] <;> omega
  rw [matGet, if_pos hcond]
  have hidx : r * m.cols + c < m.data.length := by
    rw [hwf]
    exact rowcol_index_lt hr hc
  simp only [matSet, Int.toNat_natCast]
  exact List.getElem?_set_self hidx

theorem matGet_matSet_ne (m : Mat) {r c : Nat} {r0 c0 : Int} (v : Color)
    (hc : c < m.cols) (hne : ¬(r0 = (r : Int) ∧ c0 = (c : Int))) :
    matGet (matSet m r c v) r0 c0 = matGet m r0 c0 := by
  by_cases hcond : 0 ≤ r0 ∧ r0 < (m.rows : Int) ∧ 0 ≤ c0 ∧ c0 < (m.cols : Int)
  · rw [matGet, matGet, if_pos, if_pos hcond]
    · show (m.data.set (r * m.cols + c) v)[r0.toNat * m.cols + c0.toNat]? =
        m.data[r0.toNat * m.cols + c0.toNat]?
      apply List.getElem?_set_ne
      intro hidx
      have hc0 : c0.toNat < m.cols := by omega
      obtain ⟨hre, hce⟩ := rowcol_index_inj hc hc0 hidx
      apply hne
      constructor
      · rw [← Int.toNat_of_nonneg hcond.1, ← hre]
      · rw [← Int.toNat_of_nonneg hcond.2.2.1, ← hce]
    · simpa [matSet_rows, matSet_cols] using hcond
  · rw [matGet, matGet, if_neg, if_neg hcond]
    simpa [matSet_rows, matSet_cols] using hcond

/-! ## Render pass: pointwise characterization -/

theorem renderStep_fst_rows (G : Geom) (f : Filter) (s : State) (acc : Mat × Nat)
    (p : Nat × Nat) : (renderStep G f s acc p).1.rows = acc.1.rows := by
  rw [renderStep]
  split <;> rfl

theorem renderStep_fst_cols (G : Geom) (f : Filter) (s : State) (acc : Mat × Nat)
    (p : Nat × Nat) : (renderStep G f s acc p).1.cols = acc.1.cols := by
  rw [renderStep]
  split <;> rfl

theorem renderStep_fst_length (G : Geom) (f : Filter) (s : State) (acc : Mat × Nat)
    (p : Nat × Nat) : (renderStep G f s acc p).1.data.length = acc.1.data.length := by
  rw [renderStep]
  split
  · exact matSet_length _ _ _ _
  · rfl

theorem foldl_renderStep_dims (G : Geom) (f : Filter) (s : State) :
    ∀ (L : List (Nat × Nat)) (acc : Mat × Nat),
      (L.foldl (renderStep G f s) acc).1.rows = acc.1.rows ∧
      (L.foldl (renderStep G f s) acc).1.cols = acc.1.cols ∧
      (L.foldl (renderStep G f s) acc).1.data.length = acc.1.data.length := by
  intro L
  induction L with
  | nil => intro acc; exact ⟨rfl, rfl, rfl⟩
  | cons q L ih =>
    intro acc
    have h := ih (renderStep G f s acc q)
    refine ⟨?_, ?_, ?_⟩ <;>
      simp [List.foldl_cons, h.1, h.2.1, h.2.2, renderStep_fst_rows,
        renderStep_fst_cols, renderStep_fst_length]

theorem foldl_renderStep_not_mem (G : Geom) (f : Filter) (s : State) :
    ∀ (L : List (Nat × Nat)) (acc : Mat × Nat) (c0 r0 : Nat),
      (c0, r0) ∉ L → (∀ q ∈ L, q.1 < acc.1.cols) →
      matGet (L.foldl (renderStep G f s) acc).1 (r0 : Int) (c0 : Int) =
        matGet acc.1 (r0 : Int) (c0 : Int) := by
  intro L
  induction L with
  | nil => intro acc c0 r0 _ _; rfl
  | cons q L ih =>
    intro acc c0 r0 hnm hcols
    have hq : q ≠ (c0, r0) := fun h => hnm (h ▸ List.mem_cons_self q L)
    have hstep : matGet (renderStep G f s acc q).1 (r0 : Int) (c0 : Int) =
        matGet acc.1 (r0 : Int) (c0 : Int) := by
      rw [renderStep]
      split
      · apply matGet_matSet_ne
        · exact hcols q (List.mem_cons_self q L)
        · intro hcontra
          apply hq
          have h1 : q.2 = r0 := by
            have := hcontra.1
            omega
          have h2 : q.1 = c0 := by
            have := hcontra.2
            omega
          rw [Prod.ext_iff]
          exact ⟨h2, h1⟩
      · rfl
    rw [List.foldl_cons, ih (renderStep G f s acc q) c0 r0
      (fun h => hnm (List.mem_cons_of_mem q h))
      (fun p hp => by
        rw [renderStep_fst_cols]
        exact hcols p (List.mem_cons_of_mem q hp)), hstep]

theorem renderFilter_get (G : Geom) (f : Filter) (s : State) (r c : Nat)
    (hr : r < s.matrix.rows) (hc : c < s.matrix.cols) (hwf : MatWF s.matrix) :
    ∃ g : Nat, matGet (renderFilter G f s).1 (r : Int) (c : Int) =
      if Filter.matches f s.dimensions (srcIdx s c r) (srcCoord s c r) then
        some (Operation.eval G s.operation g (sampleSrc s c r)).1
      else matGet s.matrix (r : Int) (c : Int) := by
  classical
  have hmem : (c, r) ∈ List.product (List.range s.matrix.cols) (List.range s.matrix.rows) := by
    show (c, r) ∈ (List.range s.matrix.cols) ×ˢ (List.range s.matrix.rows)
    rw [List.mem_product]
    exact ⟨List.mem_range.mpr hc, List.mem_range.mpr hr⟩
  obtain ⟨L1, L2, hP⟩ := List.append_of_mem hmem
  have hnd : (List.product (List.range s.matrix.cols) (List.range s.matrix.rows)).Nodup :=
    List.Nodup.product (List.nodup_range _) (List.nodup_range _)
  have hsub : ∀ q ∈ List.product (List.range s.matrix.cols) (List.range s.matrix.rows),
      q.1 < s.matrix.cols := by
    intro q hq
    have hq2 : (q.1, q.2) ∈ (List.range s.matrix.cols) ×ˢ (List.range s.matrix.rows) := by
      rw [Prod.mk.eta]
      exact hq
    exact List.mem_range.mp (List.mem_product.mp hq2).1
  rw [hP] at hnd
  have h12 := List.nodup_append.mp hnd
  have hnotm2 : (c, r) ∉ L2 := (List.nodup_cons.mp h12.2.1).1
  have hnotm1 : (c, r) ∉ L1 := fun hm => h12.2.2 hm (List.mem_cons_self _ _)
  have hsub1 : ∀ q ∈ L1, q.1 < s.matrix.cols := fun q hq =>
    hsub q (by rw [hP]; exact List.mem_append_left _ hq)
  have hsub2 : ∀ q ∈ L2, q.1 < s.matrix.cols := fun q hq =>
    hsub q (by rw [hP]; exact List.mem_append_right _ (List.mem_cons_of_mem _ hq))
  rw [renderFilter, hP, List.foldl_append, List.foldl_cons]
  set acc1 := L1.foldl (renderStep G f s) (s.matrix, s.rng) with hacc1
  have hdims := foldl_renderStep_dims G f s L1 (s.matrix, s.rng)
  have hrows1 : acc1.1.rows = s.matrix.rows := hdims.1
  have hcols1 : acc1.1.cols = s.matrix.cols := hdims.2.1
  have hlen1 : acc1.1.data.length = s.matrix.data.length := hdims.2.2
  have hget1 : matGet acc1.1 (r : Int) (c : Int) = matGet s.matrix (r : Int) (c : Int) :=
    foldl_renderStep_not_mem G f s L1 (s.matrix, s.rng) c r hnotm1 hsub1
  have hstep : renderStep G f s acc1 (c, r) =
      if Filter.matches f s.dimensions (srcIdx s c r) (srcCoord s c r) then
        (matSet acc1.1 r c (Operation.eval G s.operation acc1.2 (sampleSrc s c r)).1,
         (Operation.eval G s.operation acc1.2 (sampleSrc s c r)).2)
      else acc1 := rfl
  by_cases hm : Filter.matches f s.dimensions (srcIdx s c r) (srcCoord s c r) = true
  · refine ⟨acc1.2, ?_⟩
    rw [if_pos hm]
    rw [hstep, if_pos hm]
    rw [foldl_renderStep_not_mem G f s L2 _ c r hnotm2
      (fun q hq => by rw [matSet_cols, hcols1]; exact hsub2 q hq)]
    apply matGet_matSet_self
    · omega
    · omega
    · show acc1.1.data.length = acc1.1.rows * acc1.1.cols
      rw [hlen1, hrows1, hcols1]
      exact hwf
  · refine ⟨0, ?_⟩
    rw [if_neg hm, hstep, if_neg hm]
    rw [foldl_renderStep_not_mem G f s L2 acc1 c r hnotm2
      (fun q hq => by rw [hcols1]; exact hsub2 q hq)]
    exact hget1

/-! ## Backward and forward scan lemmas -/

theorem loopScan_step (p : List Command) (pc : Nat) (c : Command)
    (hc : p[pc + 1]? = some c) (h1 : ∀ n, c ≠ .For n) :
    loopScan p (pc + 1) = loopScan p pc := by
  rw [loopScan, hc]
  cases c with
  | For n => exact absurd rfl (h1 n)
  | Filter f => rfl
  | Load q => rfl
  | Loop => rfl
  | Operation op => rfl
  | Print => rfl
  | Repl => rfl
  | Resize d => rfl
  | Rotate t => rfl
  | Save q => rfl
  | Verbose => rfl

theorem loopScan_down (p : List Command) (k : Nat) :
    ∀ d, (∀ m, k < m → m ≤ k + d → ∃ c, p[m]? = some c ∧ ∀ n, c ≠ .For n) →
      loopScan p (k + d) = loopScan p k := by
  intro d
  induction d with
  | zero => intro _; rfl
  | succ d ih =>
    intro h
    obtain ⟨c, hc, hcf⟩ := h (k + d + 1) (by omega) (by omega)
    rw [show k + (d + 1) = (k + d) + 1 by ring, loopScan_step p (k + d) c hc hcf]
    exact ih fun m h1 h2 => h m h1 (by omega)

theorem loopScan_at_for (p : List Command) (k n : Nat) (hk : p[k]? = some (.For n)) :
    loopScan p k = if k = 0 then USIZE - 1 else k - 1 := by
  cases k with
  | zero => rfl
  | succ k => rw [loopScan, hk]; rfl

/-! ## Driver machinery -/

theorem straight_shape (c : Command) (h : straightOk c = true) :
    (∀ n, c ≠ .For n) ∧ c ≠ .Loop ∧ c ≠ .Repl := by
  cases c <;> simp_all [straightOk]

theorem apply_straight (G : Geom) (fuel : Nat) (c : Command) (s : State)
    (h : straightOk c = true) :
    ∃ s1, Command.apply G fuel c s = .ok s1 ∧ s1.program = s.program ∧
      s1.program_counter = s.program_counter ∧ s1.loop_counter = s.loop_counter ∧
      s1.input = s.input := by
  cases c <;> simp_all [straightOk, Command.apply] <;> exact ⟨rfl, rfl, rfl, rfl⟩

theorem apply_fuel_irrel (G : Geom) (f1 f2 : Nat) (c : Command) (s : State)
    (h : c ≠ .Repl) : Command.apply G f1 c s = Command.apply G f2 c s := by
  cases c <;> first | simp [Command.apply] | exact absurd rfl h

theorem apply_preserves_program (G : Geom) (fuel : Nat) (c : Command) (s s1 : State)
    (h : c ≠ .Repl) (hok : Command.apply G fuel c s = .ok s1) : s1.program = s.program := by
  cases c <;> first
    | exact absurd rfl h
    | (simp only [Command.apply] at hok
       first
        | (injection hok with h1
           rw [← h1]
           all_goals first | rfl | (split <;> rfl))
        | (split at hok <;> first
            | (injection hok with h1; rw [← h1]; all_goals rfl)
            | exact absurd hok (by simp)))

theorem run_succ (G : Geom) (fuel : Nat) (s s1 : State) (c : Command)
    (hc : s.program[s.program_counter]? = some c)
    (ha : Command.apply G fuel c s = .ok s1) :
    run G (fuel + 1) s = run G fuel (bump s1) := by
  simp only [run, hc, ha]

theorem trace_succ (G : Geom) (fuel : Nat) (s s1 : State) (c : Command)
    (hc : s.program[s.program_counter]? = some c)
    (ha : Command.apply G fuel c s = .ok s1) :
    execTrace G (fuel + 1) s = s.program_counter :: execTrace G fuel (bump s1) := by
  simp only [execTrace, hc, ha]

theorem run_halt (G : Geom) (fuel : Nat) (s : State)
    (h : s.program[s.program_counter]? = none) : run G fuel s = .ok s := by
  cases fuel with
  | zero => rfl
  | succ fuel => rw [run, h]

theorem trace_halt (G : Geom) (fuel : Nat) (s : State)
    (h : s.program[s.program_counter]? = none) : execTrace G fuel s = [] := by
  cases fuel with
  | zero => rfl
  | succ fuel => rw [execTrace, h]

theorem run_add (G : Geom) :
    ∀ (f1 f2 : Nat) (s s1 : State), ReplFree s.program → run G f1 s = .ok s1 →
      run G (f1 + f2) s = run G f2 s1 ∧ s1.program = s.program := by
  intro f1
  induction f1 with
  | zero =>
    intro f2 s s1 _ h
    injection h with h1
    rw [Nat.zero_add, h1]
    exact ⟨rfl, rfl⟩
  | succ f1 ih =>
    intro f2 s s1 hrf h
    match hc : s.program[s.program_counter]? with
    | none =>
      simp only [run, hc] at h
      injection h with h1
      rw [← h1]
      exact ⟨by rw [run_halt G _ s hc, run_halt G f2 s hc], rfl⟩
    | some c =>
      simp only [run, hc] at h
      have hcr : c ≠ .Repl := hrf c (List.getElem?_mem hc)
      match ha : Command.apply G f1 c s with
      | .error e =>
        rw [ha] at h
        exact absurd h (by simp)
      | .ok s2 =>
        simp only [ha] at h
        have hprog2 : (bump s2).program = s.program :=
          apply_preserves_program G f1 c s s2 hcr ha
        have hstep : run G (f1 + 1 + f2) s = run G (f1 + f2) (bump s2) := by
          rw [show f1 + 1 + f2 = (f1 + f2) + 1 by ring]
          exact run_succ G (f1 + f2) s s2 c hc
            (by rw [apply_fuel_irrel G (f1 + f2) f1 c s hcr]; exact ha)
        have := ih f2 (bump s2) s1 (by rw [hprog2]; exact hrf) h
        exact ⟨by rw [hstep, this.1], by rw [this.2, hprog2]⟩

theorem trace_add (G : Geom) :
    ∀ (f1 f2 : Nat) (s s1 : State), ReplFree s.program → run G f1 s = .ok s1 →
      execTrace G (f1 + f2) s = execTrace G f1 s ++ execTrace G f2 s1 := by
  intro f1
  induction f1 with
  | zero =>
    intro f2 s s1 _ h
    injection h with h1
    rw [Nat.zero_add, h1, execTrace, List.nil_append]
  | succ f1 ih =>
    intro f2 s s1 hrf h
    match hc : s.program[s.program_counter]? with
    | none =>
      simp only [run, hc] at h
      injection h with h1
      rw [← h1, trace_halt G _ s hc, trace_halt G _ s hc, List.nil_append,
        trace_halt G _ s hc]
    | some c =>
      simp only [run, hc] at h
      have hcr : c ≠ .Repl := hrf c (List.getElem?_mem hc)
      match ha : Command.apply G f1 c s with
      | .error e =>
        rw [ha] at h
        exact absurd h (by simp)
      | .ok s2 =>
        simp only [ha] at h
        have hprog2 : (bump s2).program = s.program :=
          apply_preserves_program G f1 c s s2 hcr ha
        have hstep : execTrace G (f1 + 1 + f2) s =
            s.program_counter :: execTrace G (f1 + f2) (bump s2) := by
          rw [show f1 + 1 + f2 = (f1 + f2) + 1 by ring]
          exact trace_succ G (f1 + f2) s s2 c hc
            (by rw [apply_fuel_irrel G (f1 + f2) f1 c s hcr]; exact ha)
        rw [hstep, ih f2 (bump s2) s1 (by rw [hprog2]; exact hrf) h,
          trace_succ G f1 s s2 c hc ha, List.cons_append]

theorem run_straight_list (G : Geom) :
    ∀ (D : List Command) (a : Nat) (s : State),
      s.program_counter = a →
      (∀ k, (h : k < D.length) → s.program[a + k]? = some D[k]) →
      (∀ c ∈ D, straightOk c = true) →
      a + D.length < USIZE →
      ∃ s1, run G D.length s = .ok s1 ∧ execTrace G D.length s = List.range' a D.length ∧
        s1.program = s.program ∧ s1.program_counter = a + D.length ∧
        s1.loop_counter = s.loop_counter ∧ s1.input = s.input := by
  intro D
  induction D with
  | nil =>
    intro a s hpc _ _ _
    exact ⟨s, rfl, rfl, rfl, by simp [hpc], rfl, rfl⟩
  | cons c D ih =>
    intro a s hpc hseg hst hU
    have hfetch : s.program[s.program_counter]? = some c := by
      rw [hpc]
      have := hseg 0 (by simp)
      simpa using this
    obtain ⟨s1, ha, hprog1, hpc1, hlc1, hin1⟩ :=
      apply_straight G D.length c s (hst c (List.mem_cons_self c D))
    have hbpc : (bump s1).program_counter = a + 1 := by
      rw [bump, hpc1, hpc]
      simp only
      rw [Nat.mod_eq_of_lt (by simp at hU; omega)]
    obtain ⟨s2, hrun2, htr2, hprog2, hpc2, hlc2, hin2⟩ := ih (a + 1) (bump s1) hbpc
      (fun k hk => by
        show (bump s1).program[a + 1 + k]? = some D[k]
        rw [bump]
        simp only
        rw [hprog1]
        have := hseg (k + 1) (by simp; omega)
        rw [show a + (k + 1) = a + 1 + k by ring] at this
        simpa using this)
      (fun d hd => hst d (List.mem_cons_of_mem c hd))
      (by simp at hU ⊢; omega)
    refine ⟨s2, ?_, ?_, ?_, ?_, ?_, ?_⟩
    · rw [List.length_cons, run_succ G D.length s s1 c hfetch ha, hrun2]
    · rw [List.length_cons, trace_succ G D.length s s1 c hfetch ha, htr2, hpc,
        List.range'_succ]
    · rw [hprog2]
      show s1.program = s.program
      exact hprog1
    · rw [hpc2]
      simp
      ring
    · rw [hlc2]
      show s1.loop_counter = s.loop_counter
      exact hlc1
    · rw [hin2]
      show s1.input = s.input
      exact hin1

/-! ## Single-block programs -/

theorem forScanGo_to_loop (p : List Command) (tgt : Nat) (htgt : p[tgt]? = some .Loop)
    (hU : tgt < USIZE) :
    ∀ bound pc, pc < tgt → tgt - pc ≤ bound →
      (∀ m, pc < m → m < tgt → ∃ c, p[m]? = some c ∧ c ≠ .Loop) →
      forScanGo p bound pc = tgt := by
  intro bound
  induction bound with
  | zero => intro pc h1 h2 _; omega
  | succ bound ih =>
    intro pc h1 h2 h3
    have hnext : (pc + 1) % USIZE = pc + 1 := Nat.mod_eq_of_lt (by omega)
    by_cases heq : pc + 1 = tgt
    · simp only [forScanGo, hnext]
      rw [heq, htgt]
    · obtain ⟨c, hc, hcl⟩ := h3 (pc + 1) (by omega) (by omega)
      simp only [forScanGo, hnext, hc]
      cases c <;> first
        | exact absurd rfl hcl
        | exact ih (pc + 1) (by omega) (by omega) fun m hm1 hm2 => h3 m (by omega) hm2

theorem forScan_to_loop (p : List Command) (tgt pc : Nat) (htgt : p[tgt]? = some .Loop)
    (hU : tgt < USIZE) (hlt : pc < tgt)
    (hmid : ∀ m, pc < m → m < tgt → ∃ c, p[m]? = some c ∧ c ≠ .Loop) :
    forScan p pc = tgt := by
  have hlen : tgt < p.length := by
    rcases List.getElem?_eq_some.mp htgt with ⟨h1, -⟩
    exact h1
  exact forScanGo_to_loop p tgt htgt hU (p.length + 2) pc hlt (by omega) hmid

theorem blockProg_length (A B C : List Command) (n : Nat) :
    (blockProg A B C n).length = A.length + B.length + C.length + 2 := by
  simp [blockProg]
  omega

theorem blockProg_get_prefix (A B C : List Command) (n k : Nat) (hk : k < A.length) :
    (blockProg A B C n)[k]? = some A[k] := by
  rw [blockProg, List.getElem?_append, if_pos hk, List.getElem?_eq_getElem hk]

theorem blockProg_get_for (A B C : List Command) (n : Nat) :
    (blockProg A B C n)[A.length]? = some (.For n) := by
  rw [blockProg, List.getElem?_append, if_neg (lt_irrefl _)]
  simp

theorem blockProg_get_body (A B C : List Command) (n k : Nat) (hk : k < B.length) :
    (blockProg A B C n)[A.length + 1 + k]? = some B[k] := by
  rw [blockProg, List.getElem?_append, if_neg (by omega)]
  have he : A.length + 1 + k - A.length = k + 1 := by omega
  rw [he, List.getElem?_cons_succ, List.getElem?_append, if_pos hk,
    List.getElem?_eq_getElem hk]

theorem blockProg_get_loop (A B C : List Command) (n : Nat) :
    (blockProg A B C n)[A.length + 1 + B.length]? = some .Loop := by
  rw [blockProg, List.getElem?_append, if_neg (by omega)]
  have he : A.length + 1 + B.length - A.length = B.length + 1 := by omega
  rw [he, List.getElem?_cons_succ, List.getElem?_append, if_neg (lt_irrefl _)]
  simp

theorem blockProg_get_suffix (A B C : List Command) (n k : Nat) (hk : k < C.length) :
    (blockProg A B C n)[A.length + 1 + B.length + 1 + k]? = some C[k] := by
  rw [blockProg, List.getElem?_append, if_neg (by omega)]
  have he : A.length + 1 + B.length + 1 + k - A.length = (B.length + 1 + k) + 1 := by omega
  rw [he, List.getElem?_cons_succ, List.getElem?_append, if_neg (by omega)]
  have he2 : B.length + 1 + k - B.length = k + 1 := by omega
  rw [he2, List.getElem?_cons_succ, List.getElem?_eq_getElem hk]

theorem blockProg_get_end (A B C : List Command) (n : Nat) :
    (blockProg A B C n)[A.length + 1 + B.length + 1 + C.length]? = none := by
  apply List.getElem?_eq_none
  rw [blockProg_length]
  omega

theorem blockProg_body_between (A B C : List Command) (n m : Nat)
    (hB : ∀ c ∈ B, straightOk c = true)
    (h1 : A.length < m) (h2 : m < A.length + 1 + B.length) :
    ∃ c, (blockProg A B C n)[m]? = some c ∧ (∀ j, c ≠ .For j) ∧ c ≠ .Loop := by
  obtain ⟨k, hk1, hk2⟩ : ∃ k, m = A.length + 1 + k ∧ k < B.length :=
    ⟨m - A.length - 1, by omega, by omega⟩
  subst hk1
  refine ⟨B[k], blockProg_get_body A B C n k hk2, ?_, ?_⟩
  · exact (straight_shape _ (hB _ (List.getElem_mem hk2))).1
  · exact (straight_shape _ (hB _ (List.getElem_mem hk2))).2.1

theorem blockProg_replFree (A B C : List Command) (n : Nat)
    (hA : ∀ c ∈ A, straightOk c = true) (hB : ∀ c ∈ B, straightOk c = true)
    (hC : ∀ c ∈ C, straightOk c = true) : ReplFree (blockProg A B C n) := by
  intro c hc
  rw [blockProg] at hc
  rcases List.mem_append.mp hc with h | h
  · exact (straight_shape c (hA c h)).2.2
  · rcases List.mem_cons.mp h with h | h
    · rw [h]; simp
    · rcases List.mem_append.mp h with h | h
      · exact (straight_shape c (hB c h)).2.2
      · rcases List.mem_cons.mp h with h | h
        · rw [h]; simp
        · exact (straight_shape c (hC c h)).2.2

theorem usize_pos : 0 < USIZE := by
  rw [USIZE]
  positivity

theorem block_iter (G : Geom) (A B C : List Command) (n : Nat)
    (hB : ∀ c ∈ B, straightOk c = true)
    (hU : A.length + B.length + C.length + 2 < USIZE)
    (hRF : ReplFree (blockProg A B C n))
    (s : State) (hprog : s.program = blockProg A B C n)
    (hpc : s.program_counter = A.length) (hlc : s.loop_counter < n) :
    ∃ s1, run G (B.length + 2) s = .ok s1 ∧
      execTrace G (B.length + 2) s = iterTrace A B ∧
      s1.program = s.program ∧ s1.program_counter = A.length ∧
      s1.loop_counter = s.loop_counter + 1 ∧ s1.input = s.input := by
  have hfetch1 : s.program[s.program_counter]? = some (.For n) := by
    rw [hpc, hprog]
    exact blockProg_get_for A B C n
  have happly1 : Command.apply G (B.length + 1) (.For n) s = .ok s := by
    simp only [Command.apply]
    rw [if_neg (by omega)]
  have hbprog : (bump s).program = s.program := rfl
  have hbpc : (bump s).program_counter = A.length + 1 := by
    show (s.program_counter + 1) % USIZE = A.length + 1
    rw [hpc, Nat.mod_eq_of_lt (by omega)]
  obtain ⟨s2, hrun2, htr2, hprog2, hpc2, hlc2, hin2⟩ := run_straight_list G B
    (A.length + 1) (bump s) hbpc
    (fun k hk => by
      show (bump s).program[A.length + 1 + k]? = some B[k]
      rw [hbprog, hprog]
      exact blockProg_get_body A B C n k hk)
    hB (by omega)
  have hRFb : ReplFree (bump s).program := by rw [hbprog, hprog]; exact hRF
  have hsplit := run_add G B.length 1 (bump s) s2 hRFb hrun2
  have htsplit := trace_add G B.length 1 (bump s) s2 hRFb hrun2
  have hfetch3 : s2.program[s2.program_counter]? = some .Loop := by
    rw [hpc2, hprog2, hbprog, hprog]
    exact blockProg_get_loop A B C n
  have hscan : loopScan s2.program s2.program_counter =
      (if A.length = 0 then USIZE - 1 else A.length - 1) := by
    rw [hpc2, hprog2, hbprog, hprog]
    have hdown := loopScan_down (blockProg A B C n) A.length (1 + B.length)
      (fun m hm1 hm2 => by
        by_cases hml : m = A.length + 1 + B.length
        · exact ⟨.Loop, by rw [hml]; exact blockProg_get_loop A B C n, by simp⟩
        · obtain ⟨c, hc, hcf, -⟩ := blockProg_body_between A B C n m hB hm1 (by omega)
          exact ⟨c, hc, hcf⟩)
    rw [show A.length + 1 + B.length = A.length + (1 + B.length) by omega, hdown]
    exact loopScan_at_for (blockProg A B C n) A.length n (blockProg_get_for A B C n)
  have happly3 : Command.apply G 0 .Loop s2 = .ok
      { s2 with program_counter := loopScan s2.program s2.program_counter,
                loop_counter := s2.loop_counter + 1 } := by
    simp only [Command.apply]
  have hrun3 : run G 1 s2 = .ok (bump
      { s2 with program_counter := loopScan s2.program s2.program_counter,
                loop_counter := s2.loop_counter + 1 }) :=
    run_succ G 0 s2 _ .Loop hfetch3 happly3
  have htr3 : execTrace G 1 s2 = [s2.program_counter] :=
    trace_succ G 0 s2 _ .Loop hfetch3 happly3
  obtain ⟨s3, hrun3o, hprog3, hpc3, hlc3, hin3⟩ :
      ∃ s3, run G 1 s2 = .ok s3 ∧ s3.program = s2.program ∧
        s3.program_counter = (loopScan s2.program s2.program_counter + 1) % USIZE ∧
        s3.loop_counter = s2.loop_counter + 1 ∧ s3.input = s2.input :=
    ⟨_, hrun3, rfl, rfl, rfl, rfl⟩
  refine ⟨s3, ?_, ?_, ?_, ?_, ?_, ?_⟩
  · rw [show B.length + 2 = (B.length + 1) + 1 by omega,
      run_succ G (B.length + 1) s s (.For n) hfetch1 happly1, hsplit.1, hrun3o]
  · rw [show B.length + 2 = (B.length + 1) + 1 by omega,
      trace_succ G (B.length + 1) s s (.For n) hfetch1 happly1, htsplit, htr2, htr3,
      hpc, hpc2, iterTrace]
  · rw [hprog3, hprog2, hbprog]
  · rw [hpc3, hscan]
    by_cases hA0 : A.length = 0
    · rw [if_pos hA0, Nat.sub_add_cancel (by omega), Nat.mod_self, hA0]
    · rw [if_neg hA0, Nat.sub_add_cancel (by omega), Nat.mod_eq_of_lt (by omega)]
  · rw [hlc3, hlc2]
    rfl
  · rw [hin3, hin2]
    rfl

theorem block_iters (G : Geom) (A B C : List Command) (n : Nat)
    (hB : ∀ c ∈ B, straightOk c = true)
    (hU : A.length + B.length + C.length + 2 < USIZE)
    (hRF : ReplFree (blockProg A B C n)) :
    ∀ (d : Nat) (s : State), s.program = blockProg A B C n →
      s.program_counter = A.length → s.loop_counter + d = n →
      ∃ s1, run G (d * (B.length + 2)) s = .ok s1 ∧
        execTrace G (d * (B.length + 2)) s = (List.replicate d (iterTrace A B)).flatten ∧
        s1.program = s.program ∧ s1.program_counter = A.length ∧
        s1.loop_counter = n ∧ s1.input = s.input := by
  intro d
  induction d with
  | zero =>
    intro s hprog hpc hlc
    rw [Nat.zero_mul]
    exact ⟨s, rfl, rfl, rfl, hpc, by omega, rfl⟩
  | succ d ih =>
    intro s hprog hpc hlc
    obtain ⟨s1, hrun1, htr1, hprog1, hpc1, hlc1, hin1⟩ :=
      block_iter G A B C n hB hU hRF s hprog hpc (by omega)
    obtain ⟨s2, hrun2, htr2, hprog2, hpc2, hlc2, hin2⟩ := ih s1 (by rw [hprog1, hprog])
      hpc1 (by omega)
    have hRFs : ReplFree s.program := by rw [hprog]; exact hRF
    have hsplit := run_add G (B.length + 2) (d * (B.length + 2)) s s1 hRFs hrun1
    have htsplit := trace_add G (B.length + 2) (d * (B.length + 2)) s s1 hRFs hrun1
    have hfuel : (d + 1) * (B.length + 2) = (B.length + 2) + d * (B.length + 2) := by ring
    refine ⟨s2, ?_, ?_, ?_, hpc2, hlc2, ?_⟩
    · rw [hfuel, hsplit.1, hrun2]
    · rw [hfuel, htsplit, htr1, htr2, List.replicate_succ, List.flatten_cons]
    · rw [hprog2, hprog1]
    · rw [hin2, hin1]

theorem block_exit (G : Geom) (A B C : List Command) (n : Nat)
    (hB : ∀ c ∈ B, straightOk c = true)
    (hU : A.length + B.length + C.length + 2 < USIZE)
    (s : State) (hprog : s.program = blockProg A B C n)
    (hpc : s.program_counter = A.length) (hlc : s.loop_counter = n) :
    ∃ s1, run G 1 s = .ok s1 ∧ execTrace G 1 s = [A.length] ∧
      s1.program = s.program ∧ s1.program_counter = A.length + 1 + B.length + 1 ∧
      s1.loop_counter = 0 ∧ s1.input = s.input := by
  have hfetch : s.program[s.program_counter]? = some (.For n) := by
    rw [hpc, hprog]
    exact blockProg_get_for A B C n
  have hscan : forScan s.program s.program_counter = A.length + 1 + B.length := by
    rw [hpc, hprog]
    apply forScan_to_loop _ _ _ (blockProg_get_loop A B C n) (by omega) (by omega)
    intro m hm1 hm2
    obtain ⟨c, hc, -, hcl⟩ := blockProg_body_between A B C n m hB hm1 hm2
    exact ⟨c, hc, hcl⟩
  have happly : Command.apply G 0 (.For n) s = .ok
      { s with program_counter := forScan s.program s.program_counter,
               loop_counter := 0 } := by
    simp only [Command.apply]
    rw [if_pos (by omega)]
  refine ⟨_, run_succ G 0 s _ (.For n) hfetch happly, ?_, rfl, ?_, rfl, rfl⟩
  · rw [trace_succ G 0 s _ (.For n) hfetch happly, hpc]
    rfl
  · show (forScan s.program s.program_counter + 1) % USIZE = A.length + 1 + B.length + 1
    rw [hscan, Nat.mod_eq_of_lt (by omega)]

theorem count_flatten_replicate (d : Nat) (l : List Nat) (x : Nat) :
    ((List.replicate d l).flatten).count x = d * l.count x := by
  induction d with
  | zero => simp
  | succ d ih =>
    rw [List.replicate_succ, List.flatten_cons, List.count_append, ih]
    ring

theorem count_range' (x a n : Nat) :
    (List.range' a n).count x = if a ≤ x ∧ x < a + n then 1 else 0 := by
  split
  · exact List.count_eq_one_of_mem (List.nodup_range' _ _ _ Nat.one_pos)
      (List.mem_range'_1.mpr (by omega))
  · exact List.count_eq_zero.mpr fun hm => by
      have := List.mem_range'_1.mp hm
      omega

theorem block_execution (G : Geom) (A B C : List Command) (n : Nat)
    (hA : ∀ c ∈ A, straightOk c = true) (hB : ∀ c ∈ B, straightOk c = true)
    (hC : ∀ c ∈ C, straightOk c = true)
    (hU : A.length + B.length + C.length + 2 < USIZE) :
    ∃ F s1, run G F (initState (blockProg A B C n)) = .ok s1 ∧
      (blockProg A B C n)[s1.program_counter]? = none ∧
      s1.loop_counter = 0 ∧
      ∀ k, k < B.length →
        (execTrace G F (initState (blockProg A B C n))).count (A.length + 1 + k) = n := by
  have hRF : ReplFree (blockProg A B C n) := blockProg_replFree A B C n hA hB hC
  set s0 := initState (blockProg A B C n) with hs0
  have hs0prog : s0.program = blockProg A B C n := rfl
  have hs0pc : s0.program_counter = 0 := rfl
  have hs0lc : s0.loop_counter = 0 := rfl
  obtain ⟨sA, hrunA, htrA, hprogA, hpcA, hlcA, -⟩ := run_straight_list G A 0 s0 hs0pc
    (fun k hk => by
      show s0.program[0 + k]? = some A[k]
      rw [hs0prog, Nat.zero_add]
      exact blockProg_get_prefix A B C n k hk) hA (by omega)
  rw [Nat.zero_add] at hpcA
  rw [hs0prog] at hprogA
  obtain ⟨sB, hrunB, htrB, hprogB, hpcB, hlcB, -⟩ := block_iters G A B C n hB hU hRF n sA
    hprogA hpcA (by omega)
  rw [hprogA] at hprogB
  obtain ⟨sE, hrunE, htrE, hprogE, hpcE, hlcE, -⟩ := block_exit G A B C n hB hU sB
    hprogB hpcB hlcB
  rw [hprogB] at hprogE
  obtain ⟨sF, hrunF, htrF, hprogF, hpcF, hlcF, -⟩ := run_straight_list G C
    (A.length + 1 + B.length + 1) sE hpcE
    (fun k hk => by
      show sE.program[A.length + 1 + B.length + 1 + k]? = some C[k]
      rw [hprogE]
      exact blockProg_get_suffix A B C n k hk) hC (by omega)
  rw [hlcE] at hlcF
  refine ⟨A.length + (n * (B.length + 2) + (1 + C.length)), sF, ?_, ?_, hlcF, ?_⟩
  · rw [(run_add G A.length _ s0 sA hRF hrunA).1,
      (run_add G (n * (B.length + 2)) _ sA sB (by rw [hprogA]; exact hRF) hrunB).1,
      (run_add G 1 C.length sB sE (by rw [hprogB]; exact hRF) hrunE).1, hrunF]
  · rw [hpcF]
    exact blockProg_get_end A B C n
  · intro k hk
    rw [trace_add G A.length _ s0 sA hRF hrunA,
      trace_add G (n * (B.length + 2)) _ sA sB (by rw [hprogA]; exact hRF) hrunB,
      trace_add G 1 C.length sB sE (by rw [hprogB]; exact hRF) hrunE,
      htrA, htrB, htrE, htrF]
    rw [List.count_append, List.count_append, List.count_append,
      count_flatten_replicate]
    simp only [iterTrace, List.count_cons, List.count_append, List.count_nil,
      count_range', beq_iff_eq]
    split_ifs <;> omega

/-! ## Parsing and reporting lemmas -/

theorem containsB_append (l2 : List Char) : ∀ l1, containsChars l2 (l1 ++ l2) = true := by
  intro l1
  induction l1 with
  | nil =>
    cases l2 with
    | nil => rfl
    | cons a t =>
      show containsChars (a :: t) (a :: t) = true
      rw [containsChars]
      have : (a :: t).isPrefixOf (a :: t) = true := by
        rw [List.isPrefixOf_iff_prefix]
      rw [this, Bool.true_or]
  | cons a t ih =>
    show containsChars l2 (a :: (t ++ l2)) = true
    rw [containsChars, ih, Bool.or_true]

theorem strContains_append (pre s : String) : strContains (pre ++ s) s = true := by
  rw [strContains, String.data_append]
  exact containsB_append s.data pre.data

theorem parse1_invalid (s a : String) (h : shape1 a = false) :
    parse1 s a = .error (.parseErr ("Invalid command: " ++ s)) := by
  rw [parse1]
  by_cases h0 : a = "all"
  · subst h0
    exact absurd h (by decide)
  rw [if_neg h0]
  by_cases h1 : a = "circle"
  · subst h1
    exact absurd h (by decide)
  rw [if_neg h1]
  by_cases h2 : a = "cross"
  · subst h2
    exact absurd h (by decide)
  rw [if_neg h2]
  by_cases h3 : a = "invert"
  · subst h3
    exact absurd h (by decide)
  rw [if_neg h3]
  by_cases h4 : a = "load"
  · subst h4
    exact absurd h (by decide)
  rw [if_neg h4]
  by_cases h5 : a = "loop"
  · subst h5
    exact absurd h (by decide)
  rw [if_neg h5]
  by_cases h6 : a = "print"
  · subst h6
    exact absurd h (by decide)
  rw [if_neg h6]
  by_cases h7 : a = "random"
  · subst h7
    exact absurd h (by decide)
  rw [if_neg h7]
  by_cases h8 : a = "repl"
  · subst h8
    exact absurd h (by decide)
  rw [if_neg h8]
  by_cases h9 : a = "save"
  · subst h9
    exact absurd h (by decide)
  rw [if_neg h9]
  by_cases h10 : a = "square"
  · subst h10
    exact absurd h (by decide)
  rw [if_neg h10]
  by_cases h11 : a = "top"
  · subst h11
    exact absurd h (by decide)
  rw [if_neg h11]
  by_cases h12 : a = "verbose"
  · subst h12
    exact absurd h (by decide)
  rw [if_neg h12]
  by_cases h13 : a = "x"
  · subst h13
    exact absurd h (by decide)
  rw [if_neg h13]
  rfl

theorem parse2_invalid (s a b : String) (h : shape2 a = false) :
    parse2 s a b = .error (.parseErr ("Invalid command: " ++ s)) := by
  rw [parse2]
  by_cases h0 : a = "for"
  · subst h0
    exact absurd h (by decide)
  rw [if_neg h0]
  by_cases h1 : a = "load"
  · subst h1
    exact absurd h (by decide)
  rw [if_neg h1]
  by_cases h2 : a = "rotate"
  · subst h2
    exact absurd h (by decide)
  rw [if_neg h2]
  by_cases h3 : a = "save"
  · subst h3
    exact absurd h (by decide)
  rw [if_neg h3]
  rfl

theorem parse3_invalid (s a b c : String) (h : shape3 a = false) :
    parse3 s a b c = .error (.parseErr ("Invalid command: " ++ s)) := by
  rw [parse3]
  by_cases h0 : a = "mod"
  · subst h0
    exact absurd h (by decide)
  rw [if_neg h0]
  by_cases h1 : a = "resize"
  · subst h1
    exact absurd h (by decide)
  rw [if_neg h1]
  by_cases h2 : a = "rotate-color"
  · subst h2
    exact absurd h (by decide)
  rw [if_neg h2]
  by_cases h3 : a = "rows"
  · subst h3
    exact absurd h (by decide)
  rw [if_neg h3]
  rfl

theorem parseParts_invalid (s : String) :
    ∀ parts, shapeMatched parts = false →
      parseParts s parts = .error (.parseErr ("Invalid command: " ++ s)) := by
  intro parts h
  rcases parts with _ | ⟨a, _ | ⟨b, _ | ⟨c, _ | ⟨d, rest⟩⟩⟩⟩
  · rfl
  · exact parse1_invalid s a h
  · exact parse2_invalid s a b h
  · exact parse3_invalid s a b c h
  · rfl

/-- Every trace of the counterexample program never reaches program index
2 (the body of the inner block): the opening for-0 skips directly past
the closing loop at index 3, and the driver halts at index 4. -/
theorem cexProg_trace (f : Nat) :
    (execTrace G0 f (initState cexProg)).count 2 = 0 := by
  match f with
  | 0 => rfl
  | 1 => rfl
  | f + 2 => rfl

/-- The counterexample program does terminate, with loop counter 0 and
the body never executed. -/
theorem cexProg_runs : ExecCountIs G0 cexProg 2 0 := by
  refine ⟨2, run G0 2 (initState cexProg) |>.toOption.getD (initState cexProg), ?_, ?_, ?_⟩ <;> rfl

/-! ## Coordinate roundtrip -/

theorem floor_half_shift (q : Int) : ⌊(q : Rat) + 1 / 2⌋ = q := by
  rw [Int.floor_int_add]
  norm_num

theorem pixel_coordinates_inv (w h : Nat) (p : Int × Int) (hw : 0 < w) (hh : 0 < h) :
    pixel (coordinates p (w, h)) (w, h) = p := by
  have hmin : 0 < min w h := lt_min hw hh
  have hm : ((min w h : Nat) : Rat) ≠ 0 := Nat.cast_ne_zero.mpr (by omega)
  rw [pixel, coordinates]
  simp only
  refine Prod.ext ?_ ?_
  · show ⌊((2 * (p.1 : Rat) + 1 - ((w : Int) : Rat)) / ((min w h : Nat) : Rat) *
        ((min w h : Nat) : Rat) + ((w : Int) : Rat)) / 2⌋ = p.1
    rw [div_mul_cancel₀ _ hm]
    rw [show (2 * (p.1 : Rat) + 1 - ((w : Int) : Rat) + ((w : Int) : Rat)) / 2 =
      (p.1 : Rat) + 1 / 2 by ring]
    exact floor_half_shift p.1
  · show ⌊((2 * (p.2 : Rat) + 1 - ((h : Int) : Rat)) / ((min w h : Nat) : Rat) *
        ((min w h : Nat) : Rat) + ((h : Int) : Rat)) / 2⌋ = p.2
    rw [div_mul_cancel₀ _ hm]
    rw [show (2 * (p.2 : Rat) + 1 - ((h : Int) : Rat) + ((h : Int) : Rat)) / 2 =
      (p.2 : Rat) + 1 / 2 by ring]
    exact floor_half_shift p.2

/-! ## Interactive loop lemmas -/

theorem replLoop_parse_error (applyF : Command → State → Except Err State)
    (fuel : Nat) (s : State) (line : String) (rest : List String) (e : Err)
    (hin : s.input = line :: rest) (hparse : parseCommand line = .error e) :
    replLoop applyF (fuel + 1) s = replLoop applyF fuel
      { s with input := rest,
               stderr := s.stderr ++
                 ["Could not parse command from " ++ line ++ ": " ++ errText e] } := by
  rw [replLoop, hin]
  simp only [hparse]

theorem replLoop_apply_error (applyF : Command → State → Except Err State)
    (fuel : Nat) (s : State) (line : String) (rest : List String) (c : Command) (e : Err)
    (hin : s.input = line :: rest) (hparse : parseCommand line = .ok c)
    (happ : applyF c { s with input := rest } = .error e) :
    replLoop applyF (fuel + 1) s = .error e := by
  rw [replLoop, hin]
  simp only [hparse, happ]

/-- A one-by-one all-background state whose rotation is the constant map
to coordinate (5, 5), which lies far outside the grid: every source
index computed during a render pass is out of range. -/
def sOut : State :=
  { initState [] with matrix := Mat.zeros 1 1, rotation := fun _ => (5, 5) }

/-! ## Claims -/

/-- Claim C1, counterexample: the render pass of src/src/command.rs
evaluates the filter against the source pixel index (the rebinding
`let i = v.pixel(...)` before `filter.filter(state, i, v)`), not the
destination pixel index as the claim states.  On a two-by-two background
grid with the half-turn rotation and the Top filter, the pass that
follows the claim's words fills the top row while the embedded pass
fills the bottom row. -/
theorem C1_dest_index_counterexample :
    (renderFilter G0 .Top sRot).1 ≠ (renderFilterDest G0 .Top sRot).1 := by
  norm_num [renderFilter, renderFilterDest, renderStep, renderStepDest, sRot, Mat.zeros,
    List.product, coordinates, pixel, Filter.matches, State.dimensions, G0, rot180,
    matGet, matSet, Operation.eval, invertColor, colorZero, List.range, List.range.loop]
  decide

/-- Claim C1 (amended): during the render pass of a Filter command, for
every destination pixel the filter predicate is evaluated against the
source pixel index — the transformed coordinate mapped back to the grid —
together with the transformed (source) coordinate; the destination cell
is rewritten exactly when that predicate holds. -/
theorem C1_filter_sees_source_index (G : Geom) (f : Filter) (s : State) (r c : Nat)
    (hr : r < s.matrix.rows) (hc : c < s.matrix.cols) (hwf : MatWF s.matrix) :
    ∃ g : Nat, matGet (renderFilter G f s).1 (r : Int) (c : Int) =
      if Filter.matches f s.dimensions
          (pixel (s.rotation (coordinates ((c : Int), (r : Int)) s.dimensions)) s.dimensions)
          (s.rotation (coordinates ((c : Int), (r : Int)) s.dimensions)) then
        some ((Operation.eval G s.operation g
          ((matGet s.matrix
            (pixel (s.rotation (coordinates ((c : Int), (r : Int)) s.dimensions)) s.dimensions).2
            (pixel (s.rotation (coordinates ((c : Int), (r : Int)) s.dimensions)) s.dimensions).1).getD
              colorZero)).1)
      else matGet s.matrix (r : Int) (c : Int) :=
  renderFilter_get G f s r c hr hc hwf

/-- Witness for claim C1's amended theorem at a concrete state. -/
theorem C1_filter_sees_source_index_witness :
    0 < sRot.matrix.rows ∧ 0 < sRot.matrix.cols ∧ MatWF sRot.matrix ∧
    (∃ g : Nat, matGet (renderFilter G0 .Top sRot).1 (0 : Int) (0 : Int) =
      if Filter.matches .Top sRot.dimensions
          (pixel (sRot.rotation (coordinates ((0 : Int), (0 : Int)) sRot.dimensions)) sRot.dimensions)
          (sRot.rotation (coordinates ((0 : Int), (0 : Int)) sRot.dimensions)) then
        some ((Operation.eval G0 sRot.operation g
          ((matGet sRot.matrix
            (pixel (sRot.rotation (coordinates ((0 : Int), (0 : Int)) sRot.dimensions)) sRot.dimensions).2
            (pixel (sRot.rotation (coordinates ((0 : Int), (0 : Int)) sRot.dimensions)) sRot.dimensions).1).getD
              colorZero)).1)
      else matGet sRot.matrix (0 : Int) (0 : Int)) :=
  ⟨by decide, by decide, by decide,
    C1_filter_sees_source_index G0 .Top sRot 0 0 (by decide) (by decide) (by decide)⟩

/-- Claim C2: the render pass reads only from the pre-step matrix, every
destination pixel the filter does not match keeps its prior value, and
the state's matrix is replaced in one step by the fully computed output
grid (together with the advanced randomness seed). -/
theorem C2_render_pass_atomic (G : Geom) (fuel : Nat) (f : Filter) (s : State) :
    Command.apply G fuel (.Filter f) s =
      .ok { s with matrix := (renderFilter G f s).1, rng := (renderFilter G f s).2 } ∧
    ∀ r c, r < s.matrix.rows → c < s.matrix.cols → MatWF s.matrix →
      (Filter.matches f s.dimensions (srcIdx s c r) (srcCoord s c r) = false →
        matGet (renderFilter G f s).1 (r : Int) (c : Int) =
          matGet s.matrix (r : Int) (c : Int)) ∧
      (Filter.matches f s.dimensions (srcIdx s c r) (srcCoord s c r) = true →
        ∃ g : Nat, matGet (renderFilter G f s).1 (r : Int) (c : Int) =
          some ((Operation.eval G s.operation g (sampleSrc s c r)).1)) := by
  constructor
  · simp only [Command.apply]
  · intro r c hr hc hwf
    obtain ⟨g, hg⟩ := renderFilter_get G f s r c hr hc hwf
    constructor
    · intro hfalse
      rw [hg, if_neg (by rw [hfalse]; simp)]
    · intro htrue
      exact ⟨g, by rw [hg, if_pos htrue]⟩

/-- Witness for claim C2's theorem at a concrete state and pixel. -/
theorem C2_render_pass_atomic_witness :
    Command.apply G0 0 (.Filter .Top) sRot =
      .ok { sRot with matrix := (renderFilter G0 .Top sRot).1,
                      rng := (renderFilter G0 .Top sRot).2 } ∧
    ((Filter.matches .Top sRot.dimensions (srcIdx sRot 0 0) (srcCoord sRot 0 0) = false →
        matGet (renderFilter G0 .Top sRot).1 (0 : Int) (0 : Int) =
          matGet sRot.matrix (0 : Int) (0 : Int)) ∧
      (Filter.matches .Top sRot.dimensions (srcIdx sRot 0 0) (srcCoord sRot 0 0) = true →
        ∃ g : Nat, matGet (renderFilter G0 .Top sRot).1 (0 : Int) (0 : Int) =
          some ((Operation.eval G0 sRot.operation g (sampleSrc sRot 0 0)).1))) :=
  ⟨(C2_render_pass_atomic G0 0 .Top sRot).1,
    (C2_render_pass_atomic G0 0 .Top sRot).2 0 0 (by decide) (by decide) (by decide)⟩

/-- Claim C3, counterexample: the program for-0, for-1, print, loop
contains a for-1 bounded block whose body is the print at index 2, yet
executing the program runs that body zero times, not once: the leading
for-0 skips forward past the first closing loop, which is the inner
block's own loop, so the inner block never starts and the driver halts. -/
theorem C3_universal_counterexample :
    ExecCountIs G0 cexProg 2 0 ∧ ¬ ExecCountIs G0 cexProg 2 1 := by
  refine ⟨cexProg_runs, ?_⟩
  rintro ⟨F, s1, -, -, hc⟩
  rw [cexProg_trace F] at hc
  exact absurd hc (by decide)

/-- Claim C3 (amended): for every program built as prefix, for-n, body,
loop, suffix, in which the prefix, body and suffix consist only of plain
state commands (no nested for or loop, no load, no repl), executing the
program terminates, runs every body command exactly n times, and leaves
the loop counter at 0. -/
theorem C3_block_body_runs_n_times (G : Geom) (A B C : List Command) (n : Nat)
    (hA : ∀ c ∈ A, straightOk c = true) (hB : ∀ c ∈ B, straightOk c = true)
    (hC : ∀ c ∈ C, straightOk c = true)
    (hU : A.length + B.length + C.length + 2 < USIZE) :
    ∃ F s1, run G F (initState (blockProg A B C n)) = .ok s1 ∧
      (blockProg A B C n)[s1.program_counter]? = none ∧
      s1.loop_counter = 0 ∧
      ∀ k, k < B.length →
        (execTrace G F (initState (blockProg A B C n))).count (A.length + 1 + k) = n :=
  block_execution G A B C n hA hB hC hU

/-- Witness for claim C3's amended theorem: a concrete two-iteration
block with nonempty prefix, body and suffix. -/
theorem C3_block_body_runs_n_times_witness :
    (∀ c ∈ [Command.Print], straightOk c = true) ∧
    (∀ c ∈ [Command.Verbose], straightOk c = true) ∧
    (∀ c ∈ [Command.Print], straightOk c = true) ∧
    ([Command.Print].length + [Command.Verbose].length + [Command.Print].length + 2 < USIZE) ∧
    (∃ F s1, run G0 F (initState (blockProg [.Print] [.Verbose] [.Print] 2)) = .ok s1 ∧
      (blockProg [.Print] [.Verbose] [.Print] 2)[s1.program_counter]? = none ∧
      s1.loop_counter = 0 ∧
      ∀ k, k < [Command.Verbose].length →
        (execTrace G0 F (initState (blockProg [.Print] [.Verbose] [.Print] 2))).count
          ([Command.Print].length + 1 + k) = 2) :=
  ⟨by decide, by decide, by decide, by decide,
    C3_block_body_runs_n_times G0 [.Print] [.Verbose] [.Print] 2
      (by decide) (by decide) (by decide) (by decide)⟩

/-- Claim C4, counterexample: executing the Loop at index 1 of the
program for-1, loop does not reposition the counter to just after the
For at index 0 (which would be index 1): the backward scan leaves the
counter at the For's index minus one with wrapping, here usize MAX. -/
theorem C4_just_after_counterexample :
    (Command.apply G0 0 .Loop sLoop).map State.program_counter = .ok (USIZE - 1) ∧
    USIZE - 1 ≠ 0 + 1 := by
  constructor
  · rfl
  · decide

/-- Claim C4 (amended): executing a Loop command scans backward to the
nearest preceding For and repositions the program counter to just before
that For (one less, with 64-bit wrapping), so that after the driver's
post-command increment execution resumes at the For itself, which
re-evaluates its condition; the loop counter is incremented by one. -/
theorem C4_loop_repositions_before_for (G : Geom) (fuel : Nat) (s : State) (k n : Nat)
    (hk : k < s.program_counter)
    (hFor : s.program[k]? = some (.For n))
    (hLoop : s.program[s.program_counter]? = some .Loop)
    (hmid : ∀ m, k < m → m < s.program_counter →
      ∃ c, s.program[m]? = some c ∧ ∀ j, c ≠ .For j)
    (hlen : s.program.length ≤ USIZE) :
    ∃ s1, Command.apply G fuel .Loop s = .ok s1 ∧
      (s1.program_counter + 1) % USIZE = k ∧
      s1.loop_counter = s.loop_counter + 1 ∧
      s1.program = s.program ∧ s1.matrix = s.matrix := by
  have hLlen : s.program_counter < s.program.length := by
    rcases List.getElem?_eq_some.mp hLoop with ⟨h1, -⟩
    exact h1
  have hscan : loopScan s.program s.program_counter =
      (if k = 0 then USIZE - 1 else k - 1) := by
    have hdown := loopScan_down s.program k (s.program_counter - k)
      (fun m hm1 hm2 => by
        by_cases hmL : m = s.program_counter
        · exact ⟨.Loop, by rw [hmL]; exact hLoop, by simp⟩
        · exact hmid m hm1 (by omega))
    rw [show s.program_counter = k + (s.program_counter - k) by omega, hdown,
      loopScan_at_for s.program k n hFor]
  have happly : Command.apply G fuel .Loop s = .ok
      { s with program_counter := loopScan s.program s.program_counter,
               loop_counter := s.loop_counter + 1 } := by
    simp only [Command.apply]
  refine ⟨_, happly, ?_, rfl, rfl, rfl⟩
  show (loopScan s.program s.program_counter + 1) % USIZE = k
  rw [hscan]
  by_cases hk0 : k = 0
  · rw [if_pos hk0, Nat.sub_add_cancel (by rw [USIZE]; omega), Nat.mod_self, hk0]
  · rw [if_neg hk0, Nat.sub_add_cancel (by omega), Nat.mod_eq_of_lt (by omega)]

/-- Witness for claim C4's amended theorem on a concrete program. -/
theorem C4_loop_repositions_before_for_witness :
    (1 < sC4w.program_counter) ∧ (sC4w.program[1]? = some (.For 2)) ∧
    (sC4w.program[sC4w.program_counter]? = some .Loop) ∧
    (sC4w.program.length ≤ USIZE) ∧
    ∃ s1, Command.apply G0 0 .Loop sC4w = .ok s1 ∧
      (s1.program_counter + 1) % USIZE = 1 ∧
      s1.loop_counter = sC4w.loop_counter + 1 ∧
      s1.program = sC4w.program ∧ s1.matrix = sC4w.matrix :=
  ⟨by decide, by decide, by decide, by decide,
    C4_loop_repositions_before_for G0 0 sC4w 1 2 (by decide) (by decide) (by decide)
      (by
        intro m h1 h2
        have h2f : m < 3 := h2
        interval_cases m
        exact ⟨.Print, by decide, fun j => by simp⟩)
      (by decide)⟩

/-- Claim C5, counterexample: executing `circle` does not merely set an
active filter in the interpreter state — there is no stored filter — it
immediately performs a full render pass: on a two-by-two background grid
it rewrites every cell of the matrix. -/
theorem C5_sets_filter_counterexample :
    (Command.apply G0 0 (.Filter .Circle) sRot).map State.matrix =
      .ok ⟨2, 2, [(255, 255, 255), (255, 255, 255), (255, 255, 255), (255, 255, 255)]⟩ ∧
    (⟨2, 2, [(255, 255, 255), (255, 255, 255), (255, 255, 255), (255, 255, 255)]⟩ : Mat) ≠
      sRot.matrix := by
  constructor
  · show Except.ok (renderFilter G0 .Circle sRot).1 = _
    norm_num [renderFilter, renderStep, sRot, Mat.zeros, List.product, coordinates,
      pixel, Filter.matches, State.dimensions, G0, rot180, matGet, matSet,
      Operation.eval, invertColor, colorZero, List.range, List.range.loop]
    decide
  · decide

/-- Claim C5 (amended): the commands all, circle, cross, square, top, x
(and mod, rows with their parameters) parse to a Filter command carrying
the named shape, and executing a Filter command immediately performs a
full render pass with that filter, replacing the matrix and the
randomness seed; no filter is stored in the state. -/
theorem C5_filter_commands_render :
    parseCommand "all" = .ok (.Filter .All) ∧
    parseCommand "circle" = .ok (.Filter .Circle) ∧
    parseCommand "cross" = .ok (.Filter .Cross) ∧
    parseCommand "square" = .ok (.Filter .Square) ∧
    parseCommand "top" = .ok (.Filter .Top) ∧
    parseCommand "x" = .ok (.Filter .X) ∧
    parseCommand "mod:3:1" = .ok (.Filter (.Mod 3 1)) ∧
    parseCommand "rows:4:2" = .ok (.Filter (.Rows 4 2)) ∧
    ∀ (G : Geom) (fuel : Nat) (f : Filter) (s : State),
      Command.apply G fuel (.Filter f) s =
        .ok { s with matrix := (renderFilter G f s).1, rng := (renderFilter G f s).2 } := by
  refine ⟨by decide, by decide, by decide, by decide, by decide, by decide, by decide,
    by decide, ?_⟩
  intro G fuel f s
  simp only [Command.apply]

/-- Claim C6, counterexample: an IO error raised while applying a command
inside the interactive loop is not caught: the read-eval-print loop
returns that error at once instead of reporting it and continuing to the
next input line (a continuing loop could only end with the end-of-input
error once both pending lines were consumed). -/
theorem C6_io_error_aborts_repl :
    replLoop (fun c t => Command.apply G0 10 c t) 5 sRepl =
      .error (.ioErr "No such file: nope.png") ∧
    Err.ioErr "No such file: nope.png" ≠ .ioErr "EOF" := by
  constructor
  · rfl
  · decide

/-- Claim C6 (amended): in the interactive loop, a parse error is caught,
reported on the diagnostic stream, and the loop continues with the next
input line; an IO error raised while applying a parsed command
propagates and terminates the loop. -/
theorem C6_parse_caught_io_propagates (applyF : Command → State → Except Err State)
    (fuel : Nat) (s : State) (line : String) (rest : List String)
    (hin : s.input = line :: rest) :
    (∀ e, parseCommand line = .error e →
      replLoop applyF (fuel + 1) s = replLoop applyF fuel
        { s with input := rest,
                 stderr := s.stderr ++
                   ["Could not parse command from " ++ line ++ ": " ++ errText e] }) ∧
    (∀ c e, parseCommand line = .ok c → applyF c { s with input := rest } = .error e →
      replLoop applyF (fuel + 1) s = .error e) := by
  constructor
  · intro e he
    exact replLoop_parse_error applyF fuel s line rest e hin he
  · intro c e hc happ
    exact replLoop_apply_error applyF fuel s line rest c e hin hc happ

/-- Witness for claim C6's amended theorem on a concrete session. -/
theorem C6_parse_caught_io_propagates_witness :
    sRepl.input = "load:nope.png" :: ["verbose"] ∧
    ((∀ e, parseCommand "load:nope.png" = .error e →
      replLoop (fun c t => Command.apply G0 10 c t) 5 sRepl =
        replLoop (fun c t => Command.apply G0 10 c t) 4
          { sRepl with input := ["verbose"],
                       stderr := sRepl.stderr ++
                         ["Could not parse command from " ++ "load:nope.png" ++ ": " ++
                           errText e] }) ∧
    (∀ c e, parseCommand "load:nope.png" = .ok c →
      Command.apply G0 10 c { sRepl with input := ["verbose"] } = .error e →
      replLoop (fun c t => Command.apply G0 10 c t) 5 sRepl = .error e)) :=
  ⟨rfl, C6_parse_caught_io_propagates (fun c t => Command.apply G0 10 c t) 4 sRepl
    "load:nope.png" ["verbose"] rfl⟩

/-- Claim C7: during a render pass, a destination pixel whose computed
source index lies outside the grid samples the zero background color,
and the pass is total: applying a Filter command never fails. -/
theorem C7_out_of_grid_samples_background (G : Geom) (fuel : Nat) (f : Filter)
    (s : State) (r c : Nat) (hr : r < s.matrix.rows) (hc : c < s.matrix.cols)
    (hwf : MatWF s.matrix)
    (hnone : matGet s.matrix (srcIdx s c r).2 (srcIdx s c r).1 = none) :
    (∃ s1, Command.apply G fuel (.Filter f) s = .ok s1) ∧
    (∃ g : Nat, matGet (renderFilter G f s).1 (r : Int) (c : Int) =
      if Filter.matches f s.dimensions (srcIdx s c r) (srcCoord s c r) then
        some ((Operation.eval G s.operation g colorZero).1)
      else matGet s.matrix (r : Int) (c : Int)) := by
  constructor
  · have happly : Command.apply G fuel (.Filter f) s = .ok
        { s with matrix := (renderFilter G f s).1, rng := (renderFilter G f s).2 } := by
      simp only [Command.apply]
    exact ⟨_, happly⟩
  · obtain ⟨g, hg⟩ := renderFilter_get G f s r c hr hc hwf
    have hs : sampleSrc s c r = colorZero := by
      rw [sampleSrc, hnone]
      rfl
    rw [hs] at hg
    exact ⟨g, hg⟩

/-- Witness for claim C7's theorem: a constant transform sending every
coordinate far outside a one-by-one grid. -/
theorem C7_out_of_grid_samples_background_witness :
    0 < sOut.matrix.rows ∧ 0 < sOut.matrix.cols ∧ MatWF sOut.matrix ∧
    matGet sOut.matrix (srcIdx sOut 0 0).2 (srcIdx sOut 0 0).1 = none ∧
    ((∃ s1, Command.apply G0 0 (.Filter .All) sOut = .ok s1) ∧
     (∃ g : Nat, matGet (renderFilter G0 .All sOut).1 (0 : Int) (0 : Int) =
       if Filter.matches .All sOut.dimensions (srcIdx sOut 0 0) (srcCoord sOut 0 0) then
         some ((Operation.eval G0 sOut.operation g colorZero).1)
       else matGet sOut.matrix (0 : Int) (0 : Int))) :=
  ⟨by decide, by decide, by decide,
    by norm_num [srcIdx, srcCoord, sOut, initState, pixel, coordinates, matGet,
      Mat.zeros, State.dimensions],
    C7_out_of_grid_samples_background G0 0 .All sOut 0 0 (by decide) (by decide)
      (by decide)
      (by norm_num [srcIdx, srcCoord, sOut, initState, pixel, coordinates, matGet,
        Mat.zeros, State.dimensions])⟩

/-- Claim C8, counterexample: the input for:9z is not a well-formed
command, and parsing it does return a parse error, but the error is the
numeric parse error propagated from the argument and its message does
not name the offending text. -/
theorem C8_numeric_error_not_naming :
    parseCommand "for:9z" = .error (.parseErr "invalid digit found in string") ∧
    strContains "invalid digit found in string" "for:9z" = false := by
  constructor
  · decide
  · decide

/-- Claim C8 (amended): an input whose colon-split token list matches no
command shape of the grammar parses to the catch-all error Invalid
command followed by the input, whose message names the offending text;
inputs matching a shape but carrying malformed numeric arguments
propagate the numeric parse error instead. -/
theorem C8_unknown_commands_named (s : String)
    (h : shapeMatched (splitChar ':' s) = false) :
    parseCommand s = .error (.parseErr ("Invalid command: " ++ s)) ∧
    strContains ("Invalid command: " ++ s) s = true := by
  constructor
  · rw [parseCommand]
    exact parseParts_invalid s (splitChar ':' s) h
  · exact strContains_append "Invalid command: " s

/-- Witness for claim C8's amended theorem on a concrete unknown
command. -/
theorem C8_unknown_commands_named_witness :
    shapeMatched (splitChar ':' "blah") = false ∧
    (parseCommand "blah" = .error (.parseErr ("Invalid command: " ++ "blah")) ∧
     strContains ("Invalid command: " ++ "blah") "blah" = true) :=
  ⟨by decide, C8_unknown_commands_named "blah" (by decide)⟩

/-- Claim C9: for positive grid dimensions and every in-range pixel
index, mapping the pixel to its aspect-normalized coordinate and back
(coordinates then pixel, with no rotation applied in between, i.e. the
identity transform) returns the same pixel. -/
theorem C9_pixel_coordinate_roundtrip (w h : Nat) (p : Int × Int)
    (hw : 0 < w) (hh : 0 < h) (h1 : 0 ≤ p.1) (h2 : p.1 < (w : Int))
    (h3 : 0 ≤ p.2) (h4 : p.2 < (h : Int)) :
    pixel (coordinates p (w, h)) (w, h) = p :=
  pixel_coordinates_inv w h p hw hh

/-- Witness for claim C9's theorem on a concrete non-square grid. -/
theorem C9_pixel_coordinate_roundtrip_witness :
    0 < 3 ∧ 0 < 2 ∧ (0 : Int) ≤ 1 ∧ (1 : Int) < (3 : Nat) ∧ (0 : Int) ≤ 1 ∧
      (1 : Int) < (2 : Nat) ∧
    pixel (coordinates (1, 1) (3, 2)) (3, 2) = (1, 1) :=
  ⟨by decide, by decide, by decide, by decide, by decide, by decide,
    C9_pixel_coordinate_roundtrip 3 2 (1, 1) (by decide) (by decide) (by decide)
      (by decide) (by decide) (by decide)⟩

/-- Claim C10: executing a Loop command with no For at any earlier
program index wraps the program counter to usize MAX, so that the
driver's post-command increment wraps it to 0 and execution resumes at
the start of the program; the loop counter is still incremented. -/
theorem C10_loop_without_for_wraps (G : Geom) (fuel : Nat) (s : State)
    (hLoop : s.program[s.program_counter]? = some .Loop)
    (hnoFor : ∀ j, j < s.program_counter → ∀ n, s.program[j]? ≠ some (.For n)) :
    ∃ s1, Command.apply G fuel .Loop s = .ok s1 ∧
      s1.program_counter = USIZE - 1 ∧
      s1.loop_counter = s.loop_counter + 1 ∧
      (s1.program_counter + 1) % USIZE = 0 := by
  have hLlen : s.program_counter < s.program.length := by
    rcases List.getElem?_eq_some.mp hLoop with ⟨hl, -⟩
    exact hl
  have hscan : loopScan s.program s.program_counter = USIZE - 1 := by
    have hdown := loopScan_down s.program 0 s.program_counter
      (fun m hm1 hm2 => by
        by_cases hmL : m = s.program_counter
        · exact ⟨.Loop, by rw [hmL]; exact hLoop, by simp⟩
        · have hms : m < s.program.length := by omega
          refine ⟨s.program[m], List.getElem?_eq_getElem hms, fun n hn => ?_⟩
          exact hnoFor m (by omega) n (by rw [← hn]; exact List.getElem?_eq_getElem hms))
    rw [show s.program_counter = 0 + s.program_counter by omega, hdown]
    rfl
  have happly : Command.apply G fuel .Loop s = .ok
      { s with program_counter := loopScan s.program s.program_counter,
               loop_counter := s.loop_counter + 1 } := by
    simp only [Command.apply]
  refine ⟨_, happly, hscan, rfl, ?_⟩
  show (loopScan s.program s.program_counter + 1) % USIZE = 0
  rw [hscan, Nat.sub_add_cancel (by rw [USIZE]; omega), Nat.mod_self]

/-- Witness for claim C10's theorem on a concrete program with no For. -/
theorem C10_loop_without_for_wraps_witness :
    sLoopw.program[sLoopw.program_counter]? = some .Loop ∧
    (∃ s1, Command.apply G0 0 .Loop sLoopw = .ok s1 ∧
      s1.program_counter = USIZE - 1 ∧
      s1.loop_counter = sLoopw.loop_counter + 1 ∧
      (s1.program_counter + 1) % USIZE = 0) :=
  ⟨by decide,
    C10_loop_without_for_wraps G0 0 sLoopw (by decide)
      (by
        intro j hj n
        have hjf : j < 1 := hj
        interval_cases j
        intro hEq
        have hv : sLoopw.program[0]? = some .Print := by decide
        rw [hv] at hEq
        simp at hEq)⟩

end Degen
